import Mathlib

/-! Shallow embedding of the gesture-recognition core of the video-chat client
(`src/client/src/services/signRecognitionService.js` and the hand utilities
used by it).  Numeric values are modelled exactly: the matcher and the
temporal stabilizer are stated over an arbitrary linear ordered field and
instantiated at `ℚ` for concrete evaluation and at `ℝ` for the full
pipeline; the geometric feature extraction (square roots, arc cosines)
lives over `ℝ`.  JavaScript objects holding named features are modelled as
association lists in the object's key-insertion order, which is the order
`Object.keys` iterates in for these literals.
-/

namespace VideoChat

/-- One MediaPipe hand landmark `{x, y, z}` in normalized coordinates.
The source treats a missing `z` as `0` (`landmark.z || 0`); the model makes
`z` always present, with `0` standing for the absent case. -/
structure Landmark where
  x : ℝ
  y : ℝ
  z : ℝ

/-- One detected hand: its landmark array and its handedness label
(`"Left"` or `"Right"` as produced by MediaPipe). -/
structure HandData where
  landmarks : List Landmark
  handedness : String

/-- The argument object of `recognizeSign`: `gestureData.hands`. -/
structure GestureData where
  hands : List HandData

/-- A feature value stored in a feature object: a number or a boolean. -/
inductive FeatureValue (α : Type) where
  | num (q : α)
  | flag (b : Bool)
deriving DecidableEq

/-- A JS feature object, as an association list in key order. -/
abbrev FeatureGroup (α : Type) := List (String × FeatureValue α)

/-- The record returned by `extractBothHandsFeatures`: per-hand feature
objects (or `null`) and the two-hand feature object (or `null`). -/
structure Features (α : Type) where
  leftHand : Option (FeatureGroup α)
  rightHand : Option (FeatureGroup α)
  bothHands : Option (FeatureGroup α)
deriving DecidableEq

/-- One constraint of a gesture template: a numeric `{min, max}` range or a
boolean flag. -/
inductive Constraint (α : Type) where
  | range (lo hi : α)
  | boolFlag (b : Bool)
deriving DecidableEq

/-- One gesture template of `bothHandsSignPatterns`. -/
structure Pattern (α : Type) where
  requiresBothHands : Bool
  bothHands : Option (List (String × Constraint α)) := none
  leftHand : Option (List (String × Constraint α)) := none
  rightHand : Option (List (String × Constraint α)) := none
deriving DecidableEq

variable {α : Type} [LinearOrderedField α]

/-- The `'HELLO'` template: right hand only. -/
def helloPattern : Pattern α :=
  { requiresBothHands := false,
    rightHand := some
      [ ("thumbToIndex", .range (1/10) (3/10)),
        ("indexAngle", .range 150 180) ] }

/-- The `'THANK YOU'` template: both hands required, pair and per-hand
constraints. -/
def thankYouPattern : Pattern α :=
  { requiresBothHands := true,
    bothHands := some
      [ ("handsDistance", .range (1/5) (1/2)),
        ("handsSymmetric", .boolFlag true) ],
    leftHand := some [ ("thumbToIndex", .range (1/5) (2/5)) ],
    rightHand := some [ ("thumbToIndex", .range (1/5) (2/5)) ] }

/-- The `'YES'` template: right hand only. -/
def yesPattern : Pattern α :=
  { requiresBothHands := false,
    rightHand := some
      [ ("thumbAngle", .range 20 50),
        ("indexAngle", .range 140 170) ] }

/-- The `'NO'` template: both hands required, pair constraint only. -/
def noPattern : Pattern α :=
  { requiresBothHands := true,
    bothHands := some [ ("indexFingertipsDistance", .range (3/10) (7/10)) ] }

/-- The `'PLEASE'` template: both hands required, pair constraints only. -/
def pleasePattern : Pattern α :=
  { requiresBothHands := true,
    bothHands := some
      [ ("handsDistance", .range (1/10) (3/10)),
        ("handsSymmetric", .boolFlag true) ] }

/-- The `'LOVE'` template: right hand only. -/
def lovePattern : Pattern α :=
  { requiresBothHands := false,
    rightHand := some
      [ ("thumbToIndex", .range (3/20) (7/20)),
        ("pinkyAngle", .range 160 180) ] }

/-- The static template table `bothHandsSignPatterns` of
`signRecognitionService.js`, in source order.  Decimal literals are the
exact rationals written in the source (`0.1 = 1/10`, `0.35 = 7/20`, ...). -/
def bothHandsSignPatterns : List (String × Pattern α) :=
  [ ("HELLO", helloPattern),
    ("THANK YOU", thankYouPattern),
    ("YES", yesPattern),
    ("NO", noPattern),
    ("PLEASE", pleasePattern),
    ("LOVE", lovePattern) ]

/-- Does an observed feature value satisfy one template constraint?
Mirrors the two branches of `checkFeatureMatch`: a `{min, max}` object
checks `featureValue >= min && featureValue <= max`; a boolean pattern
checks strict equality.  The source would numerically coerce a boolean
feature met by a range constraint, but no template/feature pairing of that
shape exists in the static table, so the model scores it as no match. -/
def constraintSatisfied (c : Constraint α) (v : FeatureValue α) : Bool :=
  match c, v with
  | .range lo hi, .num q => decide (lo ≤ q) && decide (q ≤ hi)
  | .boolFlag b, .flag b2 => b2 == b
  | _, _ => false

/-- The body of the `forEach` inside `checkFeatureMatch`: for a pattern
key defined in the feature object, bump `checks`, and bump `score` when
the constraint is satisfied; an undefined key changes nothing. -/
def checkStep (feats : FeatureGroup α) (acc : α × Nat) (nc : String × Constraint α) :
    α × Nat :=
  match feats.lookup nc.1 with
  | some v =>
      if constraintSatisfied nc.2 v then (acc.1 + 1, acc.2 + 1)
      else (acc.1, acc.2 + 1)
  | none => acc

/-- `checkFeatureMatch(features, pattern)`: fold `checkStep` over the
pattern's keys starting from `{score: 0, checks: 0}`. -/
def checkFeatureMatch (feats : FeatureGroup α) (pat : List (String × Constraint α)) :
    α × Nat :=
  pat.foldl (checkStep feats) ((0 : α), (0 : Nat))

/-- The per-template score computed inside `recognizeSign` (lines 94-128):
`0` immediately when the template requires both hands and either hand's
features are `null`; otherwise the three group scores are summed and
normalized by the total number of checks (or `0` when nothing was
checked). -/
def computeScore (f : Features α) (p : Pattern α) : α :=
  if p.requiresBothHands && (f.leftHand.isNone || f.rightHand.isNone) then 0
  else
    let bh :=
      match p.bothHands, f.bothHands with
      | some pat, some feats => checkFeatureMatch feats pat
      | _, _ => ((0 : α), 0)
    let lh :=
      match p.leftHand, f.leftHand with
      | some pat, some feats => checkFeatureMatch feats pat
      | _, _ => ((0 : α), 0)
    let rh :=
      match p.rightHand, f.rightHand with
      | some pat, some feats => checkFeatureMatch feats pat
      | _, _ => ((0 : α), 0)
    let score := bh.1 + lh.1 + rh.1
    let totalChecks : Nat := bh.2 + lh.2 + rh.2
    if totalChecks > 0 then score / (totalChecks : α) else 0

/-- `matchScores`: every template of the static table scored against the
extracted features, in table order. -/
def computeAllScores (f : Features α) : List (String × α) :=
  (bothHandsSignPatterns (α := α)).map (fun sp => (sp.1, computeScore f sp.2))

/-- Best-match selection (lines 130-139): iterate in table order, keeping
the first strictly-greater score; the initial best is `null` at score 0. -/
def findBest (scores : List (String × α)) : Option String × α :=
  scores.foldl (fun best sp => if sp.2 > best.2 then (some sp.1, sp.2) else best)
    ((none : Option String), 0)

/-- The mutable module state of the service: `recentDetections` and
`lastSentDetection`. -/
structure RecogState where
  recentDetections : List String
  lastSentDetection : Option String
deriving DecidableEq

/-- The emitted gesture event `{text, confidence, handsUsed}`. -/
structure GestureEvent (α : Type) where
  text : Option String
  confidence : α
  handsUsed : List String
deriving DecidableEq

/-- Pushing one best-match label into `recentDetections`: `push` followed
by a `shift` when the length exceeds `MAX_RECENT_DETECTIONS = 5`. -/
def pushHistory (hist : List String) (bm : String) : List String :=
  let h := hist ++ [bm]
  if h.length > 5 then h.tail else h

/-- One step of building the `counts` object: JS object keys appear in
first-insertion order, so the association list keeps that order and bumps
an existing key in place. -/
def bump (acc : List (String × Nat)) (d : String) : List (String × Nat) :=
  match acc with
  | [] => [(d, 1)]
  | (k, n) :: rest => if k == d then (k, n + 1) :: rest else (k, n) :: bump rest d

/-- One step of the `mostCommon` scan over the `counts` object: keep the
entry with a strictly greater count. -/
def bestCount (best : Option String × Nat) (kn : String × Nat) : Option String × Nat :=
  if kn.2 > best.2 then (some kn.1, kn.2) else best

/-- `mostCommon`/`highestCount` (lines 150-164): build `counts`, then scan
its keys keeping the first strictly-greater count, starting from
`(null, 0)`. -/
def mostCommonOf (hist : List String) : Option String × Nat :=
  (hist.foldl bump []).foldl bestCount ((none : Option String), 0)

/-- The confidence computed at lines 166-168: `consistency` is the most
common label's frequency over `MAX_RECENT_DETECTIONS = 5`, and the
confidence averages it with the best match's score. -/
def stabilizeConfidence (highestScore : α) (highestCount : Nat) : α :=
  let consistency : α := (highestCount : α) / 5
  (highestScore + consistency) / 2

/-- The temporal-stabilizer tail of `recognizeSign` (lines 141-196), as a
function of the best match, its score, the `handsUsed` labels, and the
module state.  The source's `gestureStartTime` block (lines 179-185) binds
dead local variables and has an empty body, so it has no semantic effect
and is not modelled. -/
def stabilize (bestMatch : Option String) (highestScore : α)
    (handsUsed : List String) (s : RecogState) :
    Option (GestureEvent α) × RecogState :=
  match bestMatch with
  | none => (none, s)
  | some bm =>
    if highestScore > 7/10 then
      let hist := pushHistory s.recentDetections bm
      let mc := mostCommonOf hist
      let confidence := stabilizeConfidence highestScore mc.2
      if mc.1 = s.lastSentDetection ∧ confidence > 8/10 then
        (none, { s with recentDetections := hist })
      else if confidence > 7/10 then
        (some { text := mc.1, confidence := confidence, handsUsed := handsUsed },
          { recentDetections := hist, lastSentDetection := mc.1 })
      else
        (none, { s with recentDetections := hist })
    else (none, s)

/-! Geometry: the hand utilities (`handUtils.js`), over `ℝ`.

JavaScript numeric operations never throw: `Math.sqrt` of a negative and
`Math.acos` outside `[-1, 1]` give `NaN`, division by zero gives
`NaN`/`Infinity`.  The model uses total real functions (with Mathlib's
junk values on the degenerate inputs, e.g. `Real.arccos` clamps where JS
produces `NaN`); the only genuine runtime exception in the extraction code
is reading a property of `undefined` when a landmark index is out of
range, which the model renders as an `Except` error. -/

/-- `calculateDistance(landmark1, landmark2)`: Euclidean distance. -/
noncomputable def calculateDistance (l1 l2 : Landmark) : ℝ :=
  let dx := l1.x - l2.x
  let dy := l1.y - l2.y
  let dz := l1.z - l2.z
  Real.sqrt (dx * dx + dy * dy + dz * dz)

/-- `calculateAngle(landmark1, landmark2, landmark3)`: the angle at the
vertex `landmark2`, in degrees, via `acos(dot / (|v1| * |v2|))`. -/
noncomputable def calculateAngle (l1 l2 l3 : Landmark) : ℝ :=
  let v1x := l1.x - l2.x
  let v1y := l1.y - l2.y
  let v1z := l1.z - l2.z
  let v2x := l3.x - l2.x
  let v2y := l3.y - l2.y
  let v2z := l3.z - l2.z
  let dotProduct := v1x * v2x + v1y * v2y + v1z * v2z
  let magnitude1 := Real.sqrt (v1x * v1x + v1y * v1y + v1z * v1z)
  let magnitude2 := Real.sqrt (v2x * v2x + v2y * v2y + v2z * v2z)
  let angleRad := Real.arccos (dotProduct / (magnitude1 * magnitude2))
  angleRad * (180 / Real.pi)

/-- The runtime failures of the extraction code: reading `landmarks[i]` of
a too-short array, or reading `.landmarks` of a failed hand search. -/
inductive ExtractErr where
  | missingLandmark (idx : Nat)
  | missingHand (side : String)
deriving DecidableEq

/-- `landmarks[i]` with the JS crash on an out-of-range index made
explicit. -/
def landmarkAt (lms : List Landmark) (i : Nat) : Except ExtractErr Landmark :=
  match lms[i]? with
  | some p => .ok p
  | none => .error (.missingLandmark i)

/-- `extractSingleHandFeatures(landmarks)`: the fourteen scalar features of
one hand, as the JS object's association list in key order.  The landmark
reads are sequenced in the source's first-access order (each index read
once), so the first out-of-range index raised is the same one the source
crashes on. -/
noncomputable def extractSingleHandFeaturesE (lms : List Landmark) :
    Except ExtractErr (FeatureGroup ℝ) := do
  let p4 ← landmarkAt lms 4
  let p0 ← landmarkAt lms 0
  let p8 ← landmarkAt lms 8
  let p12 ← landmarkAt lms 12
  let p16 ← landmarkAt lms 16
  let p20 ← landmarkAt lms 20
  let p2 ← landmarkAt lms 2
  let p3 ← landmarkAt lms 3
  let p6 ← landmarkAt lms 6
  let p7 ← landmarkAt lms 7
  let p10 ← landmarkAt lms 10
  let p11 ← landmarkAt lms 11
  let p14 ← landmarkAt lms 14
  let p15 ← landmarkAt lms 15
  let p18 ← landmarkAt lms 18
  let p19 ← landmarkAt lms 19
  pure
    [ ("thumbToWrist", .num (calculateDistance p4 p0)),
      ("indexToWrist", .num (calculateDistance p8 p0)),
      ("middleToWrist", .num (calculateDistance p12 p0)),
      ("ringToWrist", .num (calculateDistance p16 p0)),
      ("pinkyToWrist", .num (calculateDistance p20 p0)),
      ("thumbAngle", .num (calculateAngle p2 p3 p4)),
      ("indexAngle", .num (calculateAngle p6 p7 p8)),
      ("middleAngle", .num (calculateAngle p10 p11 p12)),
      ("ringAngle", .num (calculateAngle p14 p15 p16)),
      ("pinkyAngle", .num (calculateAngle p18 p19 p20)),
      ("thumbToIndex", .num (calculateDistance p4 p8)),
      ("indexToMiddle", .num (calculateDistance p8 p12)),
      ("middleToRing", .num (calculateDistance p12 p16)),
      ("ringToPinky", .num (calculateDistance p16 p20)) ]

/-- `extractBothHandsFeatures(handsData)`: per-hand features keyed by
handedness, then the two-hand features when both hands were seen.  The
`find` calls can only fail if a hand stored under `leftHand`/`rightHand`
is not found again, which cannot happen, but the source would crash there
(`undefined.landmarks`), so the model keeps that failure path explicit. -/
noncomputable def extractBothHandsFeaturesE (hands : List HandData) :
    Except ExtractErr (Features ℝ) :=
  if hands.isEmpty then .ok { leftHand := none, rightHand := none, bothHands := none }
  else do
    let base ← hands.foldlM
      (fun (acc : Features ℝ) hd => do
        let hf ← extractSingleHandFeaturesE hd.landmarks
        if hd.handedness == "Left" then pure { acc with leftHand := some hf }
        else if hd.handedness == "Right" then pure { acc with rightHand := some hf }
        else pure acc)
      { leftHand := none, rightHand := none, bothHands := none }
    if base.leftHand.isSome && base.rightHand.isSome then
      match hands.find? (fun h => h.handedness == "Left"),
          hands.find? (fun h => h.handedness == "Right") with
      | some lh, some rh => do
          let l9 ← landmarkAt lh.landmarks 9
          let r9 ← landmarkAt rh.landmarks 9
          let l8 ← landmarkAt lh.landmarks 8
          let r8 ← landmarkAt rh.landmarks 8
          pure { base with bothHands := some (
            [ ("handsDistance", .num (calculateDistance l9 r9)),
              ("indexFingertipsDistance", .num (calculateDistance l8 r8)),
              ("leftHandHigher", .flag (decide (l9.y < r9.y))),
              ("handsSymmetric", .flag (decide (|l9.y - r9.y| < 1/10))) ]) }
      | none, _ => .error (.missingHand "Left")
      | some _, none => .error (.missingHand "Right")
    else pure base

/-! The full `recognizeSign` call, over `ℝ`. -/

/-- The body of `recognizeSign` (everything inside the `try`): `null` data
or an empty hands array short-circuits to a `null` result; otherwise
extract, score, pick the best match, and run the temporal stabilizer.  Any
extraction crash escapes as an `Except.error`. -/
noncomputable def recognizeSignBody (d : Option GestureData) (s : RecogState) :
    Except ExtractErr (Option (GestureEvent ℝ) × RecogState) :=
  match d with
  | none => .ok (none, s)
  | some gd =>
    if gd.hands.isEmpty then .ok (none, s)
    else do
      let features ← extractBothHandsFeaturesE gd.hands
      let best := findBest (computeAllScores features)
      .ok (stabilize best.1 best.2 (gd.hands.map (fun h => h.handedness)) s)

/-- `recognizeSign` itself: the body wrapped in `try/catch`; the `catch`
logs and returns `null`.  The only statements that can throw run before
any mutation of the module state, so the state is unchanged on the error
path. -/
noncomputable def recognizeSign (d : Option GestureData) (s : RecogState) :
    Option (GestureEvent ℝ) × RecogState :=
  match recognizeSignBody d s with
  | .ok r => r
  | .error _ => (none, s)

/-! Statement-side definitions.

The definitions below do not model source code; they are the vocabulary in
which the specification's claims about the code are stated (occurrence
counts, the spec's matched/checked score formula, midpoint feature
vectors, test harnesses for frame sequences). -/

/-- Number of occurrences of a label in a detection history. -/
def countOcc (l : List String) (x : String) : Nat :=
  (l.filter (fun y => y == x)).length

/-- The spec's "checked" counter for one feature group: the number of
constrained features also present in the observed feature object. -/
def checkedCount (feats : FeatureGroup α) (pat : List (String × Constraint α)) : Nat :=
  (pat.filter (fun nc => (feats.lookup nc.1).isSome)).length

/-- The spec's "matched" counter for one feature group: the number of
constrained features present in the observed feature object whose value
lies in the template's `[min, max]` range (numeric) or equals its boolean
flag. -/
def matchedCount (feats : FeatureGroup α) (pat : List (String × Constraint α)) : Nat :=
  (pat.filter (fun nc =>
    match feats.lookup nc.1 with
    | some v => constraintSatisfied nc.2 v
    | none => false)).length

/-- The spec's "checked" total over the three feature groups of a
template. -/
def specChecked (f : Features α) (p : Pattern α) : Nat :=
  (match p.bothHands, f.bothHands with
    | some pat, some feats => checkedCount feats pat
    | _, _ => 0) +
  (match p.leftHand, f.leftHand with
    | some pat, some feats => checkedCount feats pat
    | _, _ => 0) +
  (match p.rightHand, f.rightHand with
    | some pat, some feats => checkedCount feats pat
    | _, _ => 0)

/-- The spec's "matched" total over the three feature groups of a
template. -/
def specMatched (f : Features α) (p : Pattern α) : Nat :=
  (match p.bothHands, f.bothHands with
    | some pat, some feats => matchedCount feats pat
    | _, _ => 0) +
  (match p.leftHand, f.leftHand with
    | some pat, some feats => matchedCount feats pat
    | _, _ => 0) +
  (match p.rightHand, f.rightHand with
    | some pat, some feats => matchedCount feats pat
    | _, _ => 0)

/-- The claim's score formula, written from the spec's words ("Final
score = matched/checked, or 0 if checked is 0") with no allowance for the
both-hands short-circuit.  Used to compare the claimed formula with the
source's `computeScore`. -/
def specScore (f : Features α) (p : Pattern α) : α :=
  if 0 < specChecked f p then (specMatched f p : α) / (specChecked f p : α) else 0

/-- The midpoint of one constraint: the center of a numeric range, or the
required boolean itself. -/
def midValue (c : Constraint α) : FeatureValue α :=
  match c with
  | .range lo hi => .num ((lo + hi) / 2)
  | .boolFlag b => .flag b

/-- The feature object whose entries sit exactly at the midpoints of one
constraint group (empty when the template does not constrain the
group). -/
def midList (pat : Option (List (String × Constraint α))) : FeatureGroup α :=
  (pat.getD []).map (fun nc => (nc.1, midValue nc.2))

/-- The synthetic feature record matching every constrained feature of a
template at its midpoint, with both hands (and the pair group) present. -/
def midFeatures (p : Pattern α) : Features α :=
  { leftHand := some (midList p.leftHand),
    rightHand := some (midList p.rightHand),
    bothHands := some (midList p.bothHands) }

/-- Run the stabilizer over a sequence of per-frame best matches,
collecting the per-frame outputs and threading the module state. -/
def runStabilizer (frames : List (Option String × α)) (handsUsed : List String)
    (s : RecogState) : List (Option (GestureEvent α)) × RecogState :=
  match frames with
  | [] => ([], s)
  | f :: rest =>
      let r := stabilize f.1 f.2 handsUsed s
      let t := runStabilizer rest handsUsed r.2
      (r.1 :: t.1, t.2)

/-- Move a whole hand vertically by `d` in normalized coordinates. -/
def shiftHandY (hd : HandData) (d : ℝ) : HandData :=
  { hd with landmarks := hd.landmarks.map (fun p => { p with y := p.y + d }) }

/-- The feature object `extractSingleHandFeatures` computes on a hand with
at least 21 landmarks (the successful case of the extractor, spelled out
for stating that extraction succeeds). -/
noncomputable def extractSingleHandFeaturesOk (lms : List Landmark)
    (h : 20 < lms.length) : FeatureGroup ℝ :=
  [ ("thumbToWrist",
      .num (calculateDistance (lms.get ⟨4, by omega⟩) (lms.get ⟨0, by omega⟩))),
    ("indexToWrist",
      .num (calculateDistance (lms.get ⟨8, by omega⟩) (lms.get ⟨0, by omega⟩))),
    ("middleToWrist",
      .num (calculateDistance (lms.get ⟨12, by omega⟩) (lms.get ⟨0, by omega⟩))),
    ("ringToWrist",
      .num (calculateDistance (lms.get ⟨16, by omega⟩) (lms.get ⟨0, by omega⟩))),
    ("pinkyToWrist",
      .num (calculateDistance (lms.get ⟨20, by omega⟩) (lms.get ⟨0, by omega⟩))),
    ("thumbAngle",
      .num (calculateAngle (lms.get ⟨2, by omega⟩) (lms.get ⟨3, by omega⟩)
        (lms.get ⟨4, by omega⟩))),
    ("indexAngle",
      .num (calculateAngle (lms.get ⟨6, by omega⟩) (lms.get ⟨7, by omega⟩)
        (lms.get ⟨8, by omega⟩))),
    ("middleAngle",
      .num (calculateAngle (lms.get ⟨10, by omega⟩) (lms.get ⟨11, by omega⟩)
        (lms.get ⟨12, by omega⟩))),
    ("ringAngle",
      .num (calculateAngle (lms.get ⟨14, by omega⟩) (lms.get ⟨15, by omega⟩)
        (lms.get ⟨16, by omega⟩))),
    ("pinkyAngle",
      .num (calculateAngle (lms.get ⟨18, by omega⟩) (lms.get ⟨19, by omega⟩)
        (lms.get ⟨20, by omega⟩))),
    ("thumbToIndex",
      .num (calculateDistance (lms.get ⟨4, by omega⟩) (lms.get ⟨8, by omega⟩))),
    ("indexToMiddle",
      .num (calculateDistance (lms.get ⟨8, by omega⟩) (lms.get ⟨12, by omega⟩))),
    ("middleToRing",
      .num (calculateDistance (lms.get ⟨12, by omega⟩) (lms.get ⟨16, by omega⟩))),
    ("ringToPinky",
      .num (calculateDistance (lms.get ⟨16, by omega⟩) (lms.get ⟨20, by omega⟩))) ]

/-! Helper lemmas. -/

/-- Folding `pushHistory` over any sequence of pushes from a legal state
keeps exactly the most recent five entries, in order. -/
theorem pushHistory_foldl (l : List String) :
    ∀ hist : List String, hist.length ≤ 5 →
      List.foldl pushHistory hist l = (hist ++ l).drop (hist.length + l.length - 5) := by
  induction l with
  | nil =>
      intro hist h
      simp [Nat.sub_eq_zero_of_le h]
  | cons a l ih =>
      intro hist h
      rw [List.foldl_cons]
      by_cases h5 : hist.length + 1 ≤ 5
      · have hp : pushHistory hist a = hist ++ [a] := by
          simp only [pushHistory]
          rw [if_neg (by simp; omega)]
        rw [hp, ih _ (by simp; omega)]
        rw [List.append_assoc, List.singleton_append]
        congr 1
        simp only [List.length_append, List.length_singleton, List.length_cons,
          List.length_nil]
        omega
      · have h5' : hist.length = 5 := by omega
        cases hist with
        | nil => simp at h5'
        | cons x t =>
            have ht : t.length = 4 := by simpa using h5'
            have hp : pushHistory (x :: t) a = t ++ [a] := by
              simp only [pushHistory]
              rw [if_pos (by simp [ht])]
              simp
            rw [hp, ih _ (by simp [ht])]
            rw [List.append_assoc, List.singleton_append, List.cons_append]
            rw [show (t ++ [a]).length + l.length - 5 = l.length by
              simp only [List.length_append, List.length_singleton, ht]; omega]
            rw [show (x :: t).length + (a :: l).length - 5 = l.length + 1 by
              simp only [List.length_cons, ht]; omega]
            rw [List.drop_succ_cons]

/-- Folding `checkStep` adds exactly the spec's matched/checked counters
to the accumulator. -/
theorem checkStep_foldl (feats : FeatureGroup α) (pat : List (String × Constraint α)) :
    ∀ (s : α) (c : Nat),
      pat.foldl (checkStep feats) (s, c) =
        (s + (matchedCount feats pat : α), c + checkedCount feats pat) := by
  induction pat with
  | nil => intro s c; simp [matchedCount, checkedCount]
  | cons nc rest ih =>
      intro s c
      rw [List.foldl_cons]
      cases hv : feats.lookup nc.1 with
      | none =>
          rw [show checkStep feats (s, c) nc = (s, c) by simp [checkStep, hv]]
          rw [ih]
          simp [matchedCount, checkedCount, List.filter_cons, hv]
      | some v =>
          cases hs : constraintSatisfied nc.2 v with
          | true =>
              rw [show checkStep feats (s, c) nc = (s + 1, c + 1) by
                simp [checkStep, hv, hs]]
              rw [ih]
              simp only [matchedCount, checkedCount, List.filter_cons, hv, hs,
                Option.isSome_some, List.length_cons, if_true, Prod.mk.injEq]
              refine ⟨by push_cast; ring, by omega⟩
          | false =>
              rw [show checkStep feats (s, c) nc = (s, c + 1) by
                simp [checkStep, hv, hs]]
              rw [ih]
              simp only [matchedCount, checkedCount, List.filter_cons, hv, hs,
                Option.isSome_some, List.length_cons, Bool.false_eq_true, if_false,
                if_true, Prod.mk.injEq]
              exact ⟨trivial, by omega⟩

/-- `checkFeatureMatch` returns exactly the spec's matched/checked pair. -/
theorem checkFeatureMatch_eq (feats : FeatureGroup α) (pat : List (String × Constraint α)) :
    checkFeatureMatch feats pat =
      ((matchedCount feats pat : α), checkedCount feats pat) := by
  rw [checkFeatureMatch, checkStep_foldl]
  simp

/-- `computeScore` agrees with the spec's matched/checked formula away
from the both-hands short-circuit. -/
theorem computeScore_eq_spec (f : Features α) (p : Pattern α) :
    computeScore f p =
      if p.requiresBothHands = true ∧ (f.leftHand.isNone = true ∨ f.rightHand.isNone = true)
      then 0 else specScore f p := by
  rcases hrq : p.requiresBothHands <;>
    rcases hfl : f.leftHand with _ | lf <;>
    rcases hfr : f.rightHand with _ | rf <;>
    rcases hpb : p.bothHands with _ | bp <;>
    rcases hfb : f.bothHands with _ | bf <;>
    rcases hpl : p.leftHand with _ | lp <;>
    rcases hpr : p.rightHand with _ | rp <;>
    simp [computeScore, specScore, specMatched, specChecked, checkFeatureMatch_eq,
      hrq, hfl, hfr, hpb, hfb, hpl, hpr, Nat.cast_add]

/-- Every template of the static table scores exactly 1 on its own
midpoint feature vector. -/
theorem computeScore_midpoint :
    ∀ np ∈ bothHandsSignPatterns (α := α), computeScore (midFeatures np.2) np.2 = 1 := by
  intro np hnp
  fin_cases hnp <;>
    · simp [computeScore, midFeatures, midList, midValue, checkFeatureMatch, checkStep,
        constraintSatisfied, List.foldl, List.lookup, bothHandsSignPatterns,
        helloPattern, thankYouPattern, yesPattern, noPattern, pleasePattern, lovePattern]
      norm_num

/-! Claim theorems. -/

/-- C4. After any number of pushes starting from the reset (empty)
history, `recentDetections` never exceeds 5 entries, and eviction is FIFO:
the buffer holds exactly the most recent best-match labels (the last five
pushed), in push order. -/
theorem claim_C4_history_fifo (l : List String) :
    (List.foldl pushHistory [] l).length ≤ 5 ∧
    List.foldl pushHistory [] l = l.drop (l.length - 5) := by
  have h := pushHistory_foldl l [] (by simp)
  simp only [List.nil_append, List.length_nil, Nat.zero_add] at h
  refine ⟨?_, h⟩
  rw [h, List.length_drop]
  omega

/-- C9. `calculateAngle` computes
`acos(dot(v1, v2) / (|v1| * |v2|))` in degrees, and is symmetric in its
two outer landmarks. -/
theorem claim_C9_angle_symmetric (a b c : Landmark) :
    calculateAngle a b c =
      Real.arccos
        (((a.x - b.x) * (c.x - b.x) + (a.y - b.y) * (c.y - b.y) +
            (a.z - b.z) * (c.z - b.z)) /
          (Real.sqrt
              ((a.x - b.x) * (a.x - b.x) + (a.y - b.y) * (a.y - b.y) +
                (a.z - b.z) * (a.z - b.z)) *
            Real.sqrt
              ((c.x - b.x) * (c.x - b.x) + (c.y - b.y) * (c.y - b.y) +
                (c.z - b.z) * (c.z - b.z)))) *
        (180 / Real.pi) ∧
    calculateAngle a b c = calculateAngle c b a := by
  refine ⟨rfl, ?_⟩
  simp only [calculateAngle]
  rw [mul_comm (Real.sqrt _) (Real.sqrt _)]
  ring_nf

/-- C10. `recognizeSign` never lets an exception escape: a normal body
result is returned as-is, and any internal error is caught and converted
to a `null` result with the module state untouched. -/
theorem claim_C10_never_throws (d : Option GestureData) (s : RecogState) :
    (∃ r, recognizeSignBody d s = .ok r ∧ recognizeSign d s = r) ∨
    (∃ e, recognizeSignBody d s = .error e ∧ recognizeSign d s = (none, s)) := by
  cases h : recognizeSignBody d s with
  | ok r => exact Or.inl ⟨r, rfl, by simp [recognizeSign, h]⟩
  | error e => exact Or.inr ⟨e, rfl, by simp [recognizeSign, h]⟩

/-- C2. A template requiring both hands scores exactly 0 whenever
either hand's features are absent, regardless of its other constraints. -/
theorem claim_C2_both_hands_required (p : Pattern α) (f : Features α)
    (hreq : p.requiresBothHands = true)
    (hmiss : f.leftHand = none ∨ f.rightHand = none) :
    computeScore f p = 0 := by
  rcases hmiss with h | h <;> simp [computeScore, hreq, h]

/-- Witness for C2: the `THANK YOU` template of the static table, against
features where only the right hand is present (and would match its
right-hand constraint perfectly), scores 0. -/
theorem claim_C2_witness :
    ("THANK YOU", thankYouPattern) ∈ bothHandsSignPatterns (α := ℚ) ∧
    (thankYouPattern (α := ℚ)).requiresBothHands = true ∧
    computeScore (α := ℚ)
      { leftHand := none,
        rightHand := some [("thumbToIndex", .num (3/10))],
        bothHands := none }
      thankYouPattern = 0 :=
  ⟨List.mem_cons_of_mem _ (List.mem_cons_self _ _), rfl,
    claim_C2_both_hands_required _ _ rfl (Or.inl rfl)⟩

/-- Counterexample for C3: against the `THANK YOU` template, a feature
record with only the right hand present (matching the template's
right-hand constraint) gets code score 0 via the both-hands short-circuit,
while the claim's matched/checked formula yields 1. -/
theorem claim_C3_counterexample :
    ("THANK YOU", thankYouPattern) ∈ bothHandsSignPatterns (α := ℚ) ∧
    computeScore (α := ℚ)
      { leftHand := none,
        rightHand := some [("thumbToIndex", .num (3/10))],
        bothHands := none }
      thankYouPattern = 0 ∧
    specScore (α := ℚ)
      { leftHand := none,
        rightHand := some [("thumbToIndex", .num (3/10))],
        bothHands := none }
      thankYouPattern = 1 ∧
    ¬ (computeScore (α := ℚ)
        { leftHand := none,
          rightHand := some [("thumbToIndex", .num (3/10))],
          bothHands := none }
        thankYouPattern =
      specScore (α := ℚ)
        { leftHand := none,
          rightHand := some [("thumbToIndex", .num (3/10))],
          bothHands := none }
        thankYouPattern) := by
  have h0 : computeScore (α := ℚ)
      { leftHand := none,
        rightHand := some [("thumbToIndex", .num (3/10))],
        bothHands := none }
      thankYouPattern = 0 := by
    simp [computeScore, thankYouPattern]
  have h1 : specScore (α := ℚ)
      { leftHand := none,
        rightHand := some [("thumbToIndex", .num (3/10))],
        bothHands := none }
      thankYouPattern = 1 := by
    simp [specScore, specChecked, specMatched, matchedCount, checkedCount,
      constraintSatisfied, thankYouPattern, List.lookup, List.filter]
    norm_num
  exact ⟨List.mem_cons_of_mem _ (List.mem_cons_self _ _), h0, h1, by
    rw [h0, h1]; norm_num⟩

/-- C3 (amended). The template score equals the spec's matched/checked
formula except that a both-hands template with a missing hand scores 0
outright; and every template of the static table scores exactly 1 on a
synthetic feature vector sitting at all its constraint midpoints. -/
theorem claim_C3_score_formula :
    (∀ (f : Features α) (p : Pattern α),
        computeScore f p =
          if p.requiresBothHands = true ∧
              (f.leftHand.isNone = true ∨ f.rightHand.isNone = true)
          then 0 else specScore f p) ∧
    (∀ np ∈ bothHandsSignPatterns (α := α), computeScore (midFeatures np.2) np.2 = 1) :=
  ⟨computeScore_eq_spec, computeScore_midpoint⟩

/-- Witness for C3: the `HELLO` template of the static table scores 1 on
its midpoint feature vector. -/
theorem claim_C3_witness :
    ("HELLO", helloPattern) ∈ bothHandsSignPatterns (α := ℚ) ∧
    computeScore (α := ℚ) (midFeatures helloPattern) helloPattern = 1 :=
  ⟨List.mem_cons_self _ _,
    (claim_C3_score_formula (α := ℚ)).2 _ (List.mem_cons_self _ _)⟩

/-- C5. From the reset state, five consecutive frames of `HELLO` at
score 1.0 produce exactly one emitted event, at the third frame (when the
confidence `(1 + 3/5)/2 = 0.8` first exceeds 0.7); the fourth and fifth
frames are suppressed as high-confidence repetitions. -/
theorem claim_C5_one_event_for_five_hellos :
    (runStabilizer (α := ℚ)
      [(some "HELLO", 1), (some "HELLO", 1), (some "HELLO", 1),
        (some "HELLO", 1), (some "HELLO", 1)]
      ["Right"] { recentDetections := [], lastSentDetection := none }).1 =
      [none, none,
        some { text := some "HELLO", confidence := 4/5, handsUsed := ["Right"] },
        none, none] := by
  norm_num [runStabilizer, stabilize, pushHistory, mostCommonOf, bump, bestCount,
    stabilizeConfidence, List.foldl]

/-- Counterexample for C6: from a state whose history holds
`[YES, YES, NO, NO]` and nothing yet emitted, two consecutive frames with
best match `YES` at score 0.9 each yield confidence exactly 0.75; the
first emits `YES`, and the second — a same-label repeat at confidence
0.75 — is *also* emitted, because the source only suppresses a repeat
whose confidence exceeds 0.8. -/
theorem claim_C6_counterexample :
    (runStabilizer (α := ℚ) [(some "YES", 9/10), (some "YES", 9/10)] ["Right"]
      { recentDetections := ["YES", "YES", "NO", "NO"], lastSentDetection := none }).1 =
      [some { text := some "YES", confidence := 3/4, handsUsed := ["Right"] },
        some { text := some "YES", confidence := 3/4, handsUsed := ["Right"] }] := by
  norm_num [runStabilizer, stabilize, pushHistory, mostCommonOf, bump, bestCount,
    stabilizeConfidence, List.foldl]

/-- C6 (amended). A frame whose (pushed) confidence lies in
`(0.7, 0.8]` always emits — in particular a same-label repeat at
confidence 0.75 is re-emitted, not suppressed; suppression of a repeated
label requires the repeat's confidence to exceed 0.8. -/
theorem claim_C6_repeat_reemitted (bm : String) (score : α) (handsUsed : List String)
    (s : RecogState) (hscore : 7/10 < score)
    (hconf_hi :
      7/10 < stabilizeConfidence score (mostCommonOf (pushHistory s.recentDetections bm)).2)
    (hconf_lo :
      stabilizeConfidence score (mostCommonOf (pushHistory s.recentDetections bm)).2 ≤ 8/10) :
    stabilize (some bm) score handsUsed s =
      (some
        { text := (mostCommonOf (pushHistory s.recentDetections bm)).1,
          confidence :=
            stabilizeConfidence score (mostCommonOf (pushHistory s.recentDetections bm)).2,
          handsUsed := handsUsed },
        { recentDetections := pushHistory s.recentDetections bm,
          lastSentDetection := (mostCommonOf (pushHistory s.recentDetections bm)).1 }) := by
  simp only [stabilize]
  rw [if_pos hscore]
  rw [if_neg (fun h => absurd h.2 (not_lt.mpr hconf_lo))]
  rw [if_pos hconf_hi]

/-- Witness for C6 (amended): the state reached right after emitting `YES`
at confidence 0.75 in the counterexample; the next `YES` frame at score
0.9 again has confidence 0.75 and is emitted. -/
theorem claim_C6_witness :
    (7/10 < (9/10 : ℚ)) ∧
    (stabilize (α := ℚ) (some "YES") (9/10) ["Right"]
      { recentDetections := ["YES", "YES", "NO", "NO", "YES"],
        lastSentDetection := some "YES" }).1.isSome = true := by
  refine ⟨by norm_num, ?_⟩
  have hmc : mostCommonOf (pushHistory ["YES", "YES", "NO", "NO", "YES"] "YES") =
      (some "YES", 3) := by
    norm_num [mostCommonOf, pushHistory, bump, bestCount, List.foldl]
  have hhi : 7/10 < stabilizeConfidence (9/10 : ℚ)
      (mostCommonOf (pushHistory ["YES", "YES", "NO", "NO", "YES"] "YES")).2 := by
    rw [hmc]; norm_num [stabilizeConfidence]
  have hlo : stabilizeConfidence (9/10 : ℚ)
      (mostCommonOf (pushHistory ["YES", "YES", "NO", "NO", "YES"] "YES")).2 ≤ 8/10 := by
    rw [hmc]; norm_num [stabilizeConfidence]
  have h := claim_C6_repeat_reemitted (α := ℚ) "YES" (9/10) ["Right"]
    { recentDetections := ["YES", "YES", "NO", "NO", "YES"], lastSentDetection := some "YES" }
    (by norm_num) hhi hlo
  rw [h]
  rfl

/-! The `counts` object and the most-common scan (for C1). -/

theorem countOcc_cons (d k : String) (l : List String) :
    countOcc (d :: l) k = (if d = k then 1 else 0) + countOcc l k := by
  by_cases h : d = k <;> simp [countOcc, List.filter_cons, h, Nat.add_comm]

/-- Bumping a label adds one to its stored count and leaves the others. -/
theorem bump_lookup_getD (acc : List (String × Nat)) (d k : String) :
    ((bump acc d).lookup k).getD 0 =
      ((acc.lookup k).getD 0) + (if k = d then 1 else 0) := by
  induction acc with
  | nil =>
      by_cases h : k = d
      · subst h; simp [bump, List.lookup]
      · simp [bump, List.lookup, h, beq_false_of_ne h]
  | cons kn rest ih =>
      obtain ⟨kk, n⟩ := kn
      by_cases h1 : kk = d
      · subst h1
        by_cases h2 : k = kk
        · subst h2; simp [bump, List.lookup]
        · simp [bump, List.lookup, h2, beq_false_of_ne h2]
      · by_cases h2 : k = kk
        · subst h2
          simp [bump, List.lookup, beq_false_of_ne h1]
          exact h1
        · simp [bump, List.lookup, beq_false_of_ne h1, beq_false_of_ne h2, ih]

/-- The `counts` object stores, for every label, exactly its number of
occurrences in the scanned history (plus whatever the accumulator already
held). -/
theorem counts_lookup_getD (l : List String) :
    ∀ (acc : List (String × Nat)) (k : String),
      ((List.foldl bump acc l).lookup k).getD 0 =
        ((acc.lookup k).getD 0) + countOcc l k := by
  induction l with
  | nil => intro acc k; simp [countOcc]
  | cons d l ih =>
      intro acc k
      rw [List.foldl_cons, ih, bump_lookup_getD, countOcc_cons]
      by_cases h : k = d
      · subst h
        simp only [if_pos rfl]
        omega
      · have h' : ¬d = k := fun hh => h hh.symm
        simp only [if_neg h, if_neg h']
        omega

theorem bump_keys_mem (acc : List (String × Nat)) (d x : String) :
    x ∈ (bump acc d).map Prod.fst → x ∈ acc.map Prod.fst ∨ x = d := by
  induction acc with
  | nil => simp [bump]
  | cons kn rest ih =>
      obtain ⟨kk, n⟩ := kn
      by_cases h : kk = d
      · subst h
        simp only [bump, beq_self_eq_true, if_true, List.map_cons, List.mem_cons]
        tauto
      · simp only [bump, beq_false_of_ne h, Bool.false_eq_true, if_false, List.map_cons,
          List.mem_cons]
        intro hx
        rcases hx with hx | hx
        · exact Or.inl (Or.inl hx)
        · rcases ih hx with h1 | h1
          · exact Or.inl (Or.inr h1)
          · exact Or.inr h1

theorem bump_keys_nodup (acc : List (String × Nat)) (d : String)
    (h : (acc.map Prod.fst).Nodup) : ((bump acc d).map Prod.fst).Nodup := by
  induction acc with
  | nil => simp [bump]
  | cons kn rest ih =>
      obtain ⟨kk, n⟩ := kn
      simp only [List.map_cons, List.nodup_cons] at h
      by_cases hd : kk = d
      · subst hd
        simp only [bump, beq_self_eq_true, if_true, List.map_cons, List.nodup_cons]
        exact ⟨h.1, h.2⟩
      · simp only [bump, beq_false_of_ne hd, Bool.false_eq_true, if_false, List.map_cons,
          List.nodup_cons]
        refine ⟨?_, ih h.2⟩
        intro hx
        rcases bump_keys_mem rest d kk hx with h1 | h1
        · exact h.1 h1
        · exact hd h1

theorem counts_keys_nodup (l : List String) :
    ∀ acc : List (String × Nat), (acc.map Prod.fst).Nodup →
      ((List.foldl bump acc l).map Prod.fst).Nodup := by
  induction l with
  | nil => intro acc h; simpa
  | cons d l ih =>
      intro acc h
      rw [List.foldl_cons]
      exact ih _ (bump_keys_nodup acc d h)

theorem lookup_eq_of_mem_of_nodup {l : List (String × Nat)} {k : String} {n : Nat}
    (hnd : (l.map Prod.fst).Nodup) (hmem : (k, n) ∈ l) : l.lookup k = some n := by
  induction l with
  | nil => simp at hmem
  | cons kn rest ih =>
      obtain ⟨kk, nn⟩ := kn
      simp only [List.map_cons, List.nodup_cons] at hnd
      rcases List.mem_cons.mp hmem with heq | hmem'
      · obtain ⟨rfl, rfl⟩ := Prod.mk.injEq .. |>.mp heq
        simp [List.lookup]
      · have hk : k ≠ kk := by
          rintro rfl
          exact hnd.1 (List.mem_map_of_mem Prod.fst hmem')
        simp only [List.lookup, beq_false_of_ne hk]
        exact ih hnd.2 hmem'

theorem mem_of_lookup_eq_some {l : List (String × Nat)} {k : String} {n : Nat}
    (h : l.lookup k = some n) : (k, n) ∈ l := by
  induction l with
  | nil => simp [List.lookup] at h
  | cons kn rest ih =>
      obtain ⟨kk, nn⟩ := kn
      by_cases hk : k = kk
      · subst hk
        simp [List.lookup] at h
        simp [h]
      · simp only [List.lookup, beq_false_of_ne hk] at h
        exact List.mem_cons_of_mem _ (ih h)

theorem bestCount_foldl_init_le (cl : List (String × Nat)) :
    ∀ b : Option String × Nat, b.2 ≤ (List.foldl bestCount b cl).2 := by
  induction cl with
  | nil => intro b; simp
  | cons kn rest ih =>
      intro b
      rw [List.foldl_cons]
      refine le_trans ?_ (ih (bestCount b kn))
      by_cases h : kn.2 > b.2 <;> simp [bestCount, h]
      exact le_of_lt h

theorem bestCount_foldl_mem_le (cl : List (String × Nat)) :
    ∀ (b : Option String × Nat), ∀ kn ∈ cl, kn.2 ≤ (List.foldl bestCount b cl).2 := by
  induction cl with
  | nil => simp
  | cons kn0 rest ih =>
      intro b kn hkn
      rw [List.foldl_cons]
      rcases List.mem_cons.mp hkn with rfl | h
      · refine le_trans ?_ (bestCount_foldl_init_le rest (bestCount b kn))
        by_cases h : kn.2 > b.2 <;> simp [bestCount, h]
        omega
      · exact ih _ kn h

theorem bestCount_foldl_cases (cl : List (String × Nat)) :
    ∀ b : Option String × Nat,
      List.foldl bestCount b cl = b ∨
      ∃ kn ∈ cl, List.foldl bestCount b cl = (some kn.1, kn.2) := by
  induction cl with
  | nil => intro b; exact Or.inl rfl
  | cons kn0 rest ih =>
      intro b
      rw [List.foldl_cons]
      by_cases h : kn0.2 > b.2
      · rw [show bestCount b kn0 = (some kn0.1, kn0.2) by simp [bestCount, h]]
        rcases ih (some kn0.1, kn0.2) with heq | ⟨kn, hmem, heq⟩
        · exact Or.inr ⟨kn0, List.mem_cons_self _ _, heq⟩
        · exact Or.inr ⟨kn, List.mem_cons_of_mem _ hmem, heq⟩
      · rw [show bestCount b kn0 = b by simp [bestCount, h]]
        rcases ih b with heq | ⟨kn, hmem, heq⟩
        · exact Or.inl heq
        · exact Or.inr ⟨kn, List.mem_cons_of_mem _ hmem, heq⟩

/-- `mostCommonOf` really returns a most frequent label: when it returns a
label, the returned count is that label's occurrence count, and no label
occurs more often. -/
theorem mostCommonOf_spec (hist : List String) :
    (∀ m, (mostCommonOf hist).1 = some m → (mostCommonOf hist).2 = countOcc hist m) ∧
    (∀ x, countOcc hist x ≤ (mostCommonOf hist).2) := by
  have hnd : ((hist.foldl bump []).map Prod.fst).Nodup :=
    counts_keys_nodup hist [] (by simp)
  constructor
  · intro m hm
    rcases bestCount_foldl_cases (hist.foldl bump [])
        ((none : Option String), 0) with heq | ⟨kn, hmem, heq⟩
    · rw [mostCommonOf, heq] at hm
      simp at hm
    · rw [mostCommonOf, heq] at hm ⊢
      simp only [Option.some.injEq] at hm
      subst hm
      have hlk : (hist.foldl bump []).lookup kn.1 = some kn.2 :=
        lookup_eq_of_mem_of_nodup hnd (by simpa using hmem)
      have hget := counts_lookup_getD hist [] kn.1
      rw [hlk] at hget
      simpa using hget
  · intro x
    rcases Nat.eq_zero_or_pos (countOcc hist x) with h0 | hpos
    · simp [h0]
    · have hget := counts_lookup_getD hist [] x
      simp only [List.lookup, Option.getD_none, Nat.zero_add] at hget
      rcases hlk : (hist.foldl bump []).lookup x with _ | v
      · rw [hlk] at hget
        simp at hget
        omega
      · rw [hlk] at hget
        simp at hget
        subst hget
        have hmem := mem_of_lookup_eq_some hlk
        have := bestCount_foldl_mem_le (hist.foldl bump [])
          ((none : Option String), 0) (x, countOcc hist x) hmem
        simpa [mostCommonOf] using this

/-- C1. For a frame whose best-match score exceeds 0.7 (so the label
is pushed), with `mostCommon`/`highestCount` taken over the pushed
history: `highestCount` is `mostCommon`'s frequency and is maximal; an
event is emitted iff the confidence exceeds 0.7 and (the label differs
from `lastSentDetection` or the confidence is at most 0.8); and an
emitted event carries `{text := mostCommon, confidence, handsUsed}` while
the state records the pushed history and `lastSentDetection :=
mostCommon`. -/
theorem claim_C1_emission (bm : String) (score : α) (handsUsed : List String)
    (s : RecogState) (hscore : 7/10 < score) :
    (∀ m, (mostCommonOf (pushHistory s.recentDetections bm)).1 = some m →
      (mostCommonOf (pushHistory s.recentDetections bm)).2 =
        countOcc (pushHistory s.recentDetections bm) m) ∧
    (∀ x, countOcc (pushHistory s.recentDetections bm) x ≤
      (mostCommonOf (pushHistory s.recentDetections bm)).2) ∧
    ((stabilize (some bm) score handsUsed s).1.isSome ↔
      (7/10 < stabilizeConfidence score
          (mostCommonOf (pushHistory s.recentDetections bm)).2 ∧
        ((mostCommonOf (pushHistory s.recentDetections bm)).1 ≠ s.lastSentDetection ∨
          stabilizeConfidence score
            (mostCommonOf (pushHistory s.recentDetections bm)).2 ≤ 8/10))) ∧
    (∀ ev s', stabilize (some bm) score handsUsed s = (some ev, s') →
      ev = { text := (mostCommonOf (pushHistory s.recentDetections bm)).1,
             confidence := stabilizeConfidence score
               (mostCommonOf (pushHistory s.recentDetections bm)).2,
             handsUsed := handsUsed } ∧
      s' = { recentDetections := pushHistory s.recentDetections bm,
             lastSentDetection :=
               (mostCommonOf (pushHistory s.recentDetections bm)).1 }) := by
  refine ⟨(mostCommonOf_spec _).1, (mostCommonOf_spec _).2, ?_, ?_⟩
  · simp only [stabilize]
    rw [if_pos hscore]
    by_cases h1 : ((mostCommonOf (pushHistory s.recentDetections bm)).1 =
        s.lastSentDetection ∧
        8/10 < stabilizeConfidence score
          (mostCommonOf (pushHistory s.recentDetections bm)).2)
    · rw [if_pos h1]
      simp only [Option.isSome_none, Bool.false_eq_true, false_iff]
      rintro ⟨hc, hne | hle⟩
      · exact hne h1.1
      · exact absurd h1.2 (not_lt.mpr hle)
    · rw [if_neg h1]
      by_cases h2 : 7/10 < stabilizeConfidence score
          (mostCommonOf (pushHistory s.recentDetections bm)).2
      · rw [if_pos h2]
        simp only [Option.isSome_some, true_iff]
        refine ⟨h2, ?_⟩
        by_cases heq : (mostCommonOf (pushHistory s.recentDetections bm)).1 =
            s.lastSentDetection
        · exact Or.inr (not_lt.mp fun hgt => h1 ⟨heq, hgt⟩)
        · exact Or.inl heq
      · rw [if_neg h2]
        simp only [Option.isSome_none, Bool.false_eq_true, false_iff]
        rintro ⟨hc, _⟩
        exact h2 hc
  · intro ev s' hev
    rw [stabilize.eq_def] at hev
    simp only [] at hev
    rw [if_pos hscore] at hev
    by_cases h1 : ((mostCommonOf (pushHistory s.recentDetections bm)).1 =
        s.lastSentDetection ∧
        8/10 < stabilizeConfidence score
          (mostCommonOf (pushHistory s.recentDetections bm)).2)
    · rw [if_pos h1] at hev
      simp at hev
    · rw [if_neg h1] at hev
      by_cases h2 : 7/10 < stabilizeConfidence score
          (mostCommonOf (pushHistory s.recentDetections bm)).2
      · rw [if_pos h2] at hev
        simp only [Prod.mk.injEq, Option.some.injEq] at hev
        exact ⟨hev.1.symm, hev.2.symm⟩
      · rw [if_neg h2] at hev
        simp at hev

/-- Witness for C1: one `HELLO` frame at score 1 from the reset state (the
confidence `(1 + 1/5)/2 = 0.6` is below the 0.7 bar, so both sides of
the emission equivalence are false). -/
theorem claim_C1_witness :
    (7/10 < (1 : ℚ)) ∧
    ((stabilize (α := ℚ) (some "HELLO") 1 ["Right"]
        { recentDetections := [], lastSentDetection := none }).1.isSome ↔
      (7/10 < stabilizeConfidence (1 : ℚ) (mostCommonOf (pushHistory [] "HELLO")).2 ∧
        ((mostCommonOf (pushHistory [] "HELLO")).1 ≠ none ∨
          stabilizeConfidence (1 : ℚ) (mostCommonOf (pushHistory [] "HELLO")).2 ≤
            8/10))) := by
  refine ⟨by norm_num, ?_⟩
  exact (claim_C1_emission (α := ℚ) "HELLO" 1 ["Right"]
    { recentDetections := [], lastSentDetection := none } (by norm_num)).2.2.1

/-! Extraction failure behavior (for C7 and C8). -/

/-- A landmark array shorter than 21 entries makes the single-hand
extractor crash: one of its landmark reads (index 20 at the latest) is out
of range. -/
theorem extractSingle_err_of_short (lms : List Landmark) (hlen : lms.length < 21) :
    ∃ e, extractSingleHandFeaturesE lms = .error e := by
  have h20 : landmarkAt lms 20 = .error (.missingLandmark 20) := by
    simp [landmarkAt, List.getElem?_eq_none (by omega : lms.length ≤ 20)]
  rcases h4 : landmarkAt lms 4 with e | p4
  · exact ⟨e, by simp [extractSingleHandFeaturesE, h4, Except.instMonad, Except.bind]⟩
  rcases h0 : landmarkAt lms 0 with e | p0
  · exact ⟨e, by simp [extractSingleHandFeaturesE, h4, h0, Except.instMonad, Except.bind]⟩
  rcases h8 : landmarkAt lms 8 with e | p8
  · exact ⟨e, by
      simp [extractSingleHandFeaturesE, h4, h0, h8, Except.instMonad, Except.bind]⟩
  rcases h12 : landmarkAt lms 12 with e | p12
  · exact ⟨e, by
      simp [extractSingleHandFeaturesE, h4, h0, h8, h12, Except.instMonad, Except.bind]⟩
  rcases h16 : landmarkAt lms 16 with e | p16
  · exact ⟨e, by
      simp [extractSingleHandFeaturesE, h4, h0, h8, h12, h16, Except.instMonad,
        Except.bind]⟩
  exact ⟨.missingLandmark 20, by
    simp [extractSingleHandFeaturesE, h4, h0, h8, h12, h16, h20, Except.instMonad,
      Except.bind]⟩

/-- Counterexample for C7: on a frame with one right hand and an empty
landmark array, the body of `recognizeSign` raises (the first read,
`landmarks[4]`, is out of range) — but `recognizeSign` itself returns the
normal `null` result with the state untouched: the error does *not*
propagate out of the recognition call. -/
theorem claim_C7_counterexample :
    recognizeSignBody
      (some { hands := [{ landmarks := [], handedness := "Right" }] })
      { recentDetections := [], lastSentDetection := none } =
      .error (.missingLandmark 4) ∧
    recognizeSign
      (some { hands := [{ landmarks := [], handedness := "Right" }] })
      { recentDetections := [], lastSentDetection := none } =
      (none, { recentDetections := [], lastSentDetection := none }) :=
  ⟨rfl, rfl⟩

/-- C7 (amended). On landmark arrays shorter than 21 entries the
extractor does fail fast (an out-of-range landmark read raises before any
state is mutated), but — contrary to the claim — the error never
propagates out of the recognition call: `recognizeSign` catches every
internal exception and converts it to a `null` result. -/
theorem claim_C7_error_contained (lms : List Landmark) (hn : String) (s : RecogState)
    (hlen : lms.length < 21) :
    (∃ e, recognizeSignBody
        (some { hands := [{ landmarks := lms, handedness := hn }] }) s = .error e) ∧
    recognizeSign (some { hands := [{ landmarks := lms, handedness := hn }] }) s =
      (none, s) := by
  obtain ⟨e, he⟩ := extractSingle_err_of_short lms hlen
  have hbody : recognizeSignBody
      (some { hands := [{ landmarks := lms, handedness := hn }] }) s = .error e := by
    simp [recognizeSignBody, extractBothHandsFeaturesE, he, Except.instMonad, Except.bind,
      List.foldlM]
  exact ⟨⟨e, hbody⟩, by simp [recognizeSign, hbody]⟩

/-- Witness for C7 (amended): a five-landmark right hand. -/
theorem claim_C7_witness :
    ((List.replicate 5 ({ x := 0, y := 0, z := 0 } : Landmark)).length < 21) ∧
    (∃ e, recognizeSignBody
        (some { hands := [{ landmarks := List.replicate 5 { x := 0, y := 0, z := 0 },
                            handedness := "Right" }] })
        { recentDetections := [], lastSentDetection := none } = .error e) ∧
    recognizeSign
      (some { hands := [{ landmarks := List.replicate 5 { x := 0, y := 0, z := 0 },
                          handedness := "Right" }] })
      { recentDetections := [], lastSentDetection := none } =
      (none, { recentDetections := [], lastSentDetection := none }) := by
  refine ⟨by simp, ?_, ?_⟩
  · exact (claim_C7_error_contained (List.replicate 5 { x := 0, y := 0, z := 0 })
      "Right" { recentDetections := [], lastSentDetection := none } (by simp)).1
  · exact (claim_C7_error_contained (List.replicate 5 { x := 0, y := 0, z := 0 })
      "Right" { recentDetections := [], lastSentDetection := none } (by simp)).2

theorem landmarkAt_ok (lms : List Landmark) (i : Nat) (h : i < lms.length) :
    landmarkAt lms i = .ok (lms.get ⟨i, h⟩) := by
  simp [landmarkAt, List.getElem?_eq_getElem h]

/-- With at least 21 landmarks, the single-hand extractor succeeds and
returns the spelled-out feature object. -/
theorem extractSingle_ok_of_long (lms : List Landmark) (h : 20 < lms.length) :
    extractSingleHandFeaturesE lms = .ok (extractSingleHandFeaturesOk lms h) := by
  have e4 := landmarkAt_ok lms 4 (by omega)
  have e0 := landmarkAt_ok lms 0 (by omega)
  have e8 := landmarkAt_ok lms 8 (by omega)
  have e12 := landmarkAt_ok lms 12 (by omega)
  have e16 := landmarkAt_ok lms 16 (by omega)
  have e20 := landmarkAt_ok lms 20 (by omega)
  have e2 := landmarkAt_ok lms 2 (by omega)
  have e3 := landmarkAt_ok lms 3 (by omega)
  have e6 := landmarkAt_ok lms 6 (by omega)
  have e7 := landmarkAt_ok lms 7 (by omega)
  have e10 := landmarkAt_ok lms 10 (by omega)
  have e11 := landmarkAt_ok lms 11 (by omega)
  have e14 := landmarkAt_ok lms 14 (by omega)
  have e15 := landmarkAt_ok lms 15 (by omega)
  have e18 := landmarkAt_ok lms 18 (by omega)
  have e19 := landmarkAt_ok lms 19 (by omega)
  simp [extractSingleHandFeaturesE, extractSingleHandFeaturesOk, e4, e0, e8, e12, e16,
    e20, e2, e3, e6, e7, e10, e11, e14, e15, e18, e19, Except.instMonad, Except.bind,
    Except.pure]

/-- Full evaluation of the two-hand extraction on one left and one right
hand, each with at least 21 landmarks. -/
theorem extractBoth_LR (Ll Rl : List Landmark) (hL : 20 < Ll.length)
    (hR : 20 < Rl.length) :
    extractBothHandsFeaturesE
        [{ landmarks := Ll, handedness := "Left" },
         { landmarks := Rl, handedness := "Right" }] =
      .ok { leftHand := some (extractSingleHandFeaturesOk Ll hL),
            rightHand := some (extractSingleHandFeaturesOk Rl hR),
            bothHands := some
              [ ("handsDistance",
                  .num (calculateDistance (Ll.get ⟨9, by omega⟩) (Rl.get ⟨9, by omega⟩))),
                ("indexFingertipsDistance",
                  .num (calculateDistance (Ll.get ⟨8, by omega⟩) (Rl.get ⟨8, by omega⟩))),
                ("leftHandHigher",
                  .flag (decide ((Ll.get ⟨9, by omega⟩).y < (Rl.get ⟨9, by omega⟩).y))),
                ("handsSymmetric",
                  .flag (decide
                    (|(Ll.get ⟨9, by omega⟩).y - (Rl.get ⟨9, by omega⟩).y| < 1/10))) ] } := by
  have hfl := extractSingle_ok_of_long Ll hL
  have hfr := extractSingle_ok_of_long Rl hR
  have l9 := landmarkAt_ok Ll 9 (by omega)
  have r9 := landmarkAt_ok Rl 9 (by omega)
  have l8 := landmarkAt_ok Ll 8 (by omega)
  have r8 := landmarkAt_ok Rl 8 (by omega)
  simp [extractBothHandsFeaturesE, List.foldlM, List.find?, hfl, hfr, l9, r9, l8, r8,
    Except.instMonad, Except.bind, Except.pure]

/-- C8. For a frame with one left and one right hand (each a full
21-landmark set), extraction succeeds and the `handsSymmetric` flag of the
pair features is true exactly when the two middle-finger-base landmarks
(index 9) differ in height by strictly less than 0.1; and when they are
within 0.1, shifting one hand down by 0.2 flips the flag to false. -/
theorem claim_C8_hands_symmetric (Ll Rl : List Landmark)
    (hL : 20 < Ll.length) (hR : 20 < Rl.length) :
    (∃ f pf hs,
      extractBothHandsFeaturesE
          [{ landmarks := Ll, handedness := "Left" },
           { landmarks := Rl, handedness := "Right" }] = .ok f ∧
      f.bothHands = some pf ∧
      pf.lookup "handsSymmetric" = some (.flag hs) ∧
      (hs = true ↔ |(Ll.get ⟨9, by omega⟩).y - (Rl.get ⟨9, by omega⟩).y| < 1/10)) ∧
    (|(Ll.get ⟨9, by omega⟩).y - (Rl.get ⟨9, by omega⟩).y| < 1/10 →
      ∃ f pf,
        extractBothHandsFeaturesE
            [{ landmarks := Ll, handedness := "Left" },
             shiftHandY { landmarks := Rl, handedness := "Right" } (1/5)] = .ok f ∧
        f.bothHands = some pf ∧
        pf.lookup "handsSymmetric" = some (.flag false)) := by
  constructor
  · exact ⟨_, _, _, extractBoth_LR Ll Rl hL hR, rfl, rfl, decide_eq_true_iff⟩
  · intro hsym
    have hR' : 20 <
        (shiftHandY { landmarks := Rl, handedness := "Right" } (1/5)).landmarks.length := by
      simpa [shiftHandY] using hR
    have hb := extractBoth_LR Ll
      (shiftHandY { landmarks := Rl, handedness := "Right" } (1/5)).landmarks hL hR'
    refine ⟨_, _, hb, rfl, ?_⟩
    simp [List.lookup, shiftHandY]
    have hsym' := hsym
    simp only [List.get_eq_getElem] at hsym'
    rcases abs_lt.mp hsym' with ⟨h1, h2⟩
    apply le_abs.mpr
    right
    linarith

/-- Witness for C8: two identical flat hands at height 0; the height
difference is 0, so the symmetry flag is true. -/
theorem claim_C8_witness :
    (20 < (List.replicate 21 ({ x := 0, y := 0, z := 0 } : Landmark)).length) ∧
    (∃ f pf hs,
      extractBothHandsFeaturesE
          [{ landmarks := List.replicate 21 { x := 0, y := 0, z := 0 },
             handedness := "Left" },
           { landmarks := List.replicate 21 { x := 0, y := 0, z := 0 },
             handedness := "Right" }] = .ok f ∧
      f.bothHands = some pf ∧
      pf.lookup "handsSymmetric" = some (.flag hs) ∧
      (hs = true ↔
        |((List.replicate 21 ({ x := 0, y := 0, z := 0 } : Landmark)).get
            ⟨9, by simp⟩).y -
          ((List.replicate 21 ({ x := 0, y := 0, z := 0 } : Landmark)).get
            ⟨9, by simp⟩).y| < 1/10)) := by
  refine ⟨by simp, ?_⟩
  exact (claim_C8_hands_symmetric
    (List.replicate 21 { x := 0, y := 0, z := 0 })
    (List.replicate 21 { x := 0, y := 0, z := 0 })
    (by simp) (by simp)).1

end VideoChat
